import Mathlib

/-!
Verification of the feedback governance workflow of the
content-intelligence-platform repository.

The definitions below are a shallow embedding of the Python source:

* `src/app/models/feedback.py` and `src/app/models/auth.py` (enums and
  record shapes),
* `src/app/services/permission_service.py` (role/capability tables),
* `src/app/services/feedback_service.py` (`FeedbackService`: submit,
  search, review, apply, withdraw, audit trail, rule overrides),
* `src/app/routers/feedback_router.py` (the submit endpoint's permission
  gate and the router's own withdraw implementation).

Python dictionaries are modelled as insertion-ordered association lists,
timestamps as natural numbers (the services draw every timestamp within
one operation from `datetime.utcnow()`, modelled as a single `now`
parameter), and raised exceptions as `Except` errors.  Fields of the
pydantic models that no verified operation reads (free-text metadata,
session context) are omitted.  Where the Python enum spells members in
upper case but the service accesses them in lower case
(`FeedbackStatus.pending`), the embedding uses the service's spelling;
`withdrawn` is included in the status type because
`FeedbackService.withdraw_feedback` assigns it, although the pydantic
`FeedbackStatus` enum does not declare it.
-/

namespace CIP

/-- `UserRole` from `src/app/models/auth.py` (four roles). -/
inductive UserRole where
  | finance_admin
  | strategy_analyst
  | marketing_user
  | read_only
deriving DecidableEq

/-- String value of a role, as in the Python `str`-enum. -/
def UserRole.value : UserRole → String
  | .finance_admin => "finance_admin"
  | .strategy_analyst => "strategy_analyst"
  | .marketing_user => "marketing_user"
  | .read_only => "read_only"

/-- `FeedbackStatus` from `src/app/models/feedback.py`, extended with
`withdrawn`, which `FeedbackService.withdraw_feedback` assigns even though
the pydantic enum does not declare it. -/
inductive FeedbackStatus where
  | pending
  | approved
  | rejected
  | applied
  | under_review
  | withdrawn
deriving DecidableEq

/-- String value of a status, as in the Python `str`-enum. -/
def FeedbackStatus.value : FeedbackStatus → String
  | .pending => "pending"
  | .approved => "approved"
  | .rejected => "rejected"
  | .applied => "applied"
  | .under_review => "under_review"
  | .withdrawn => "withdrawn"

/-- `FeedbackType` from `src/app/models/feedback.py`. -/
inductive FeedbackType where
  | definition_correction
  | misattribution
  | override
  | rule_change
  | metric_update
  | cost_allocation
  | revenue_attribution
deriving DecidableEq

/-- String value of a feedback type, as in the Python `str`-enum. -/
def FeedbackType.value : FeedbackType → String
  | .definition_correction => "definition_correction"
  | .misattribution => "misattribution"
  | .override => "override"
  | .rule_change => "rule_change"
  | .metric_update => "metric_update"
  | .cost_allocation => "cost_allocation"
  | .revenue_attribution => "revenue_attribution"

/-- `FeedbackTargetType` from `src/app/models/feedback.py`. -/
inductive FeedbackTargetType where
  | metric
  | content_id
  | rule_id
  | definition
  | cost_allocation
  | revenue_attribution
deriving DecidableEq

/-- String value of a target type, as in the Python `str`-enum. -/
def FeedbackTargetType.value : FeedbackTargetType → String
  | .metric => "metric"
  | .content_id => "content_id"
  | .rule_id => "rule_id"
  | .definition => "definition"
  | .cost_allocation => "cost_allocation"
  | .revenue_attribution => "revenue_attribution"

/-- `User` from `src/app/models/auth.py` (the fields the feedback and
permission services read). -/
structure User where
  id : Nat
  username : String
  role : UserRole
deriving DecidableEq

/-- `FeedbackSubmission` from `src/app/models/feedback.py` (the fields
`FeedbackService.submit_feedback` reads).  Payload values are modelled as
string-to-string pairs. -/
structure FeedbackSubmission where
  actor_id : String
  actor_role : UserRole
  feedback_type : FeedbackType
  target_type : FeedbackTargetType
  target_id : Option String
  payload : List (String × String)
  description : String
  priority : String
deriving DecidableEq

/-- `FeedbackEvent` as constructed and mutated by `FeedbackService`
(`src/app/services/feedback_service.py`).  `actor_id` holds the submitting
`User.id`; `review_notes`, `reviewed_by`, `reviewed_at` are written by
`review_feedback`; `applied_by`/`applied_at` are declared by the pydantic
model (defaulting to `None`) and `apply_feedback` writes only
`applied_at`. -/
structure FeedbackEvent where
  id : String
  actor_id : Nat
  actor_role : UserRole
  feedback_type : FeedbackType
  target_type : FeedbackTargetType
  target_id : Option String
  payload : List (String × String)
  status : FeedbackStatus
  review_notes : Option String := none
  reviewed_by : Option Nat := none
  reviewed_at : Option Nat := none
  applied_by : Option Nat := none
  applied_at : Option Nat := none
  created_at : Nat
  updated_at : Nat
deriving DecidableEq

/-- `FeedbackReview` as read by `FeedbackService.review_feedback`, which
accesses `review.status` (the requested new status) and `review.notes`. -/
structure FeedbackReview where
  status : FeedbackStatus
  notes : String
deriving DecidableEq

/-- `FeedbackApplication` as read by `FeedbackService.apply_feedback`. -/
structure FeedbackApplication where
  rule_type : String
  rule_name : String
  old_value : List (String × String)
  new_value : List (String × String)
  effective_from : Option Nat
  effective_until : Option Nat
  description : String
deriving DecidableEq

/-- `RuleOverride` as constructed by `FeedbackService.apply_feedback`.
`is_active` is the pydantic model's field (`models/feedback.py`, default
`True`); the service constructor never passes it, so every created
override carries `true`, and `FeedbackService.get_rule_overrides` never
consults it. -/
structure RuleOverride where
  id : String
  feedback_id : String
  rule_type : String
  rule_name : String
  old_value : List (String × String)
  new_value : List (String × String)
  applied_by : Nat
  applied_at : Nat
  effective_from : Nat
  effective_until : Option Nat
  is_active : Bool := true
  description : String
deriving DecidableEq

/-- Snapshot values stored in audit entries: either a small string map
(the status dictionaries the service builds) or a whole feedback event
(`feedback_event.dict()` on submission). -/
inductive AuditValue where
  | mapVal (pairs : List (String × String))
  | eventVal (e : FeedbackEvent)
deriving DecidableEq

/-- An audit trail entry as built by `FeedbackService._add_audit_entry`. -/
structure AuditEntry where
  id : Nat
  action : String
  actor_id : Nat
  target_type : String
  target_id : String
  old_value : Option AuditValue
  new_value : Option AuditValue
  description : String
  timestamp : Nat
deriving DecidableEq

/-- The mutable state of `FeedbackService`: `feedback_store` and
`rule_overrides` are Python dicts (insertion-ordered association lists
here), `audit_trail` a list. -/
structure ServiceState where
  feedback_store : List (String × FeedbackEvent)
  rule_overrides : List (String × RuleOverride)
  audit_trail : List AuditEntry
deriving DecidableEq

/-- Dictionary lookup (`d.get(k)` / `d[k]`) on an insertion-ordered
association list. -/
def dget {α : Type} (d : List (String × α)) (k : String) : Option α :=
  match d with
  | [] => none
  | (k', v) :: rest => if k = k' then some v else dget rest k

/-- Dictionary assignment `d[k] = v`: replaces the value in place if the
key is present (keeping its position, as a Python dict does), otherwise
appends the pair. -/
def dset {α : Type} (d : List (String × α)) (k : String) (v : α) :
    List (String × α) :=
  match d with
  | [] => [(k, v)]
  | (k', v') :: rest =>
      if k = k' then (k', v) :: rest else (k', v') :: dset rest k v

/-- The error taxonomy the service and router surface (`ValueError`s and
HTTP error responses in the source). -/
inductive ServiceError where
  | notFound (id : String)
  | permissionDenied (msg : String)
  | invalidState (msg : String)
  | invalidArgument (msg : String)
deriving DecidableEq

/-- `PermissionService.role_permissions`
(`src/app/services/permission_service.py`, lines 22-44): the static
role-to-capability table, capability strings in `resource:action` form. -/
def rolePermissions : UserRole → List String
  | .finance_admin =>
      ["content:read", "content:write", "content:delete",
       "feedback:read", "feedback:write", "feedback:apply",
       "definitions:read", "definitions:write",
       "users:read", "users:write", "users:delete",
       "audit:read", "metrics:read", "ml:read", "ml:write"]
  | .strategy_analyst =>
      ["content:read", "content:write",
       "feedback:read", "feedback:write",
       "definitions:read", "definitions:write",
       "metrics:read", "ml:read", "ml:write"]
  | .marketing_user =>
      ["content:read", "content:write",
       "feedback:read", "feedback:write",
       "definitions:read", "metrics:read", "ml:read"]
  | .read_only =>
      ["content:read", "definitions:read", "metrics:read"]

/-- `PermissionService.has_permission` restricted to the role (the method
looks up `role_permissions[user.role]` and tests membership). -/
def roleHasPermission (r : UserRole) (capability : String) : Bool :=
  decide (capability ∈ rolePermissions r)

/-- `PermissionService.has_permission(user, permission)`. -/
def hasPermission (u : User) (capability : String) : Bool :=
  roleHasPermission u.role capability

/-- `PERMISSIONS` from `src/app/models/auth.py` (lines 132-159): a second
static table, with capability strings in `action:resource` form. -/
def authPermissionsTable : UserRole → List String
  | .finance_admin =>
      ["read:content", "write:content",
       "read:costs", "write:costs",
       "read:revenue", "write:revenue",
       "read:feedback", "write:feedback", "apply:feedback",
       "read:reports", "write:reports",
       "read:users", "write:users",
       "read:finance_rules", "write:finance_rules"]
  | .strategy_analyst =>
      ["read:content", "write:content",
       "read:costs", "read:revenue",
       "read:feedback", "write:feedback",
       "read:reports", "write:reports",
       "read:finance_rules"]
  | .marketing_user =>
      ["read:content", "write:content",
       "read:costs", "read:revenue",
       "read:feedback", "write:feedback",
       "read:reports"]
  | .read_only =>
      ["read:content", "read:costs", "read:revenue", "read:reports"]

/-! ### SHA-256 (`hashlib.sha256(...).hexdigest()` as used by
`_generate_feedback_id` / `_generate_override_id`) -/

/-- Truncation to 32 bits. -/
def w32 (x : Nat) : Nat := x % 4294967296

/-- 32-bit right rotation. -/
def rotr (n x : Nat) : Nat := w32 ((x >>> n) ||| (x <<< (32 - n)))

/-- SHA-256 round constants (FIPS 180-4), written in decimal. -/
def sha256K : List Nat :=
  [1116352408, 1899447441, 3049323471, 3921009573,
   961987163, 1508970993, 2453635748, 2870763221,
   3624381080, 310598401, 607225278, 1426881987,
   1925078388, 2162078206, 2614888103, 3248222580,
   3835390401, 4022224774, 264347078, 604807628,
   770255983, 1249150122, 1555081692, 1996064986,
   2554220882, 2821834349, 2952996808, 3210313671,
   3336571891, 3584528711, 113926993, 338241895,
   666307205, 773529912, 1294757372, 1396182291,
   1695183700, 1986661051, 2177026350, 2456956037,
   2730485921, 2820302411, 3259730800, 3345764771,
   3516065817, 3600352804, 4094571909, 275423344,
   430227734, 506948616, 659060556, 883997877,
   958139571, 1322822218, 1537002063, 1747873779,
   1955562222, 2024104815, 2227730452, 2361852424,
   2428436474, 2756734187, 3204031479, 3329325298]

/-- The eight 32-bit working values of the SHA-256 state. -/
structure Hash8 where
  a : Nat
  b : Nat
  c : Nat
  d : Nat
  e : Nat
  f : Nat
  g : Nat
  h : Nat
deriving DecidableEq

/-- SHA-256 initial hash values. -/
def sha256Init : Hash8 :=
  { a := 1779033703, b := 3144134277, c := 1013904242, d := 2773480762,
    e := 1359893119, f := 2600822924, g := 528734635, h := 1541459225 }

/-- Big-endian byte rendering of `x` in `n` bytes. -/
def beBytes (n x : Nat) : List Nat :=
  (List.range n).map (fun i => (x >>> (8 * (n - 1 - i))) % 256)

/-- SHA-256 padding: `0x80`, zeros to 56 mod 64, 8-byte bit length. -/
def padMessage (msg : List Nat) : List Nat :=
  let zeroCount := (120 - ((msg.length + 1) % 64)) % 64
  msg ++ [0x80] ++ List.replicate zeroCount 0 ++ beBytes 8 (msg.length * 8)

/-- Four consecutive bytes at a time into big-endian 32-bit words. -/
def bytesToWords : List Nat → List Nat
  | b0 :: b1 :: b2 :: b3 :: rest =>
      ((b0 <<< 24) ||| (b1 <<< 16) ||| (b2 <<< 8) ||| b3) :: bytesToWords rest
  | _ => []

/-- Message-schedule extension: appends one word derived from the words
15, 2, 16 and 7 positions back, `fuel` times (48 for SHA-256). -/
def extendSchedule : Nat → List Nat → List Nat
  | 0, ws => ws
  | fuel + 1, ws =>
      let i := ws.length
      let w15 := ws.getD (i - 15) 0
      let w2 := ws.getD (i - 2) 0
      let w16 := ws.getD (i - 16) 0
      let w7 := ws.getD (i - 7) 0
      let s0 := ((rotr 7 w15) ^^^ (rotr 18 w15)) ^^^ (w15 >>> 3)
      let s1 := ((rotr 17 w2) ^^^ (rotr 19 w2)) ^^^ (w2 >>> 10)
      extendSchedule fuel (ws ++ [w32 (w16 + s0 + w7 + s1)])

/-- One SHA-256 compression round, fed a `(k, w)` pair. -/
def roundStep (st : Hash8) (kw : Nat × Nat) : Hash8 :=
  let s1 := ((rotr 6 st.e) ^^^ (rotr 11 st.e)) ^^^ (rotr 25 st.e)
  let ch := (st.e &&& st.f) ^^^ ((st.e ^^^ 4294967295) &&& st.g)
  let temp1 := w32 (st.h + s1 + ch + kw.1 + kw.2)
  let s0 := ((rotr 2 st.a) ^^^ (rotr 13 st.a)) ^^^ (rotr 22 st.a)
  let maj := (st.a &&& st.b) ^^^ (st.a &&& st.c) ^^^ (st.b &&& st.c)
  let temp2 := w32 (s0 + maj)
  { a := w32 (temp1 + temp2), b := st.a, c := st.b, d := st.c,
    e := w32 (st.d + temp1), f := st.e, g := st.f, h := st.g }

/-- Compression of one 64-byte chunk, added into the running hash. -/
def processChunk (hs : Hash8) (chunk : List Nat) : Hash8 :=
  let ws := extendSchedule 48 (bytesToWords chunk)
  let st := (sha256K.zip ws).foldl roundStep hs
  { a := w32 (hs.a + st.a), b := w32 (hs.b + st.b), c := w32 (hs.c + st.c),
    d := w32 (hs.d + st.d), e := w32 (hs.e + st.e), f := w32 (hs.f + st.f),
    g := w32 (hs.g + st.g), h := w32 (hs.h + st.h) }

/-- Fold over the 64-byte chunks of the padded message (`fuel` bounds the
number of steps; called with the message length, which suffices). -/
def processChunks : Nat → Hash8 → List Nat → Hash8
  | _, hs, [] => hs
  | 0, hs, _ :: _ => hs
  | fuel + 1, hs, bytes@(_ :: _) =>
      processChunks fuel (processChunk hs (bytes.take 64)) (bytes.drop 64)

/-- Full SHA-256 over a byte list. -/
def sha256Bytes (msg : List Nat) : Hash8 :=
  let padded := padMessage msg
  processChunks padded.length sha256Init padded

/-- Lower-case hex digit. -/
def hexChar (n : Nat) : Char :=
  if n < 10 then Char.ofNat (48 + n) else Char.ofNat (87 + n)

/-- Eight hex characters of a 32-bit word, most significant first. -/
def wordHexChars (w : Nat) : List Char :=
  [hexChar (w / 268435456 % 16), hexChar (w / 16777216 % 16),
   hexChar (w / 1048576 % 16), hexChar (w / 65536 % 16),
   hexChar (w / 4096 % 16), hexChar (w / 256 % 16),
   hexChar (w / 16 % 16), hexChar (w % 16)]

/-- `hexdigest()`: 64 hex characters of the final hash. -/
def hashHexChars (hs : Hash8) : List Char :=
  wordHexChars hs.a ++ wordHexChars hs.b ++ wordHexChars hs.c ++
  wordHexChars hs.d ++ wordHexChars hs.e ++ wordHexChars hs.f ++
  wordHexChars hs.g ++ wordHexChars hs.h

/-- `content.encode()` for the ASCII strings the id generators build. -/
def strBytes (s : String) : List Nat := s.data.map Char.toNat

/-- `FeedbackService._generate_feedback_id`: SHA-256 of
`actor.id:feedback_type:target_type:timestamp`, truncated to 16 hex
characters. -/
def generateFeedbackId (sub : FeedbackSubmission) (actor : User)
    (now : Nat) : String :=
  let content := toString actor.id ++ ":" ++ sub.feedback_type.value ++ ":"
    ++ sub.target_type.value ++ ":" ++ toString now
  String.mk ((hashHexChars (sha256Bytes (strBytes content))).take 16)

/-- `FeedbackService._generate_override_id`: SHA-256 of
`feedback.id:rule_type:rule_name:timestamp`, truncated to 16 hex
characters. -/
def generateOverrideId (fb : FeedbackEvent) (app : FeedbackApplication)
    (now : Nat) : String :=
  let content := fb.id ++ ":" ++ app.rule_type ++ ":" ++ app.rule_name
    ++ ":" ++ toString now
  String.mk ((hashHexChars (sha256Bytes (strBytes content))).take 16)

/-! ### Stable sorting (Python's `list.sort(key=..., reverse=...)`) -/

/-- Insert `x` after every element `y` with `bef y x` (read: `y` comes
strictly before `x` in the target order) and before the rest.  Together
with `sortStable` below this is extensionally the stable sort Python's
`list.sort` performs. -/
def insOrd {α : Type} (bef : α → α → Bool) (x : α) : List α → List α
  | [] => [x]
  | y :: ys => if bef y x then y :: insOrd bef x ys else x :: y :: ys

/-- Stable sort by the strict precedence test `bef`: elements the test
does not separate keep their original relative order. -/
def sortStable {α : Type} (bef : α → α → Bool) : List α → List α
  | [] => []
  | x :: xs => insOrd bef x (sortStable bef xs)

/-! ### `FeedbackService` operations -/

/-- `FeedbackService._add_audit_entry`: appends one entry whose id is the
current trail length plus one. -/
def addAuditEntry (st : ServiceState) (action : String) (actorId : Nat)
    (targetType targetId : String) (oldV newV : Option AuditValue)
    (descr : String) (now : Nat) : ServiceState :=
  { st with audit_trail := st.audit_trail ++
      [{ id := st.audit_trail.length + 1, action := action,
         actor_id := actorId, target_type := targetType,
         target_id := targetId, old_value := oldV, new_value := newV,
         description := descr, timestamp := now }] }

/-- `FeedbackService.submit_feedback`: creates the event with status
`pending`, stores it under the generated id (overwriting any existing
entry with that id), and appends one audit entry. -/
def submitFeedback (st : ServiceState) (sub : FeedbackSubmission)
    (actor : User) (now : Nat) : FeedbackEvent × ServiceState :=
  let fid := generateFeedbackId sub actor now
  let ev : FeedbackEvent :=
    { id := fid, actor_id := actor.id, actor_role := actor.role,
      feedback_type := sub.feedback_type, target_type := sub.target_type,
      target_id := sub.target_id, payload := sub.payload,
      status := .pending, created_at := now, updated_at := now }
  let st1 := { st with feedback_store := dset st.feedback_store fid ev }
  let st2 := addAuditEntry st1 "feedback_submitted" actor.id "feedback"
    fid none (some (.eventVal ev))
    ("Feedback submitted by " ++ actor.username) now
  (ev, st2)

/-- `FeedbackService.review_feedback`: after the existence check it
unconditionally sets the event's status to `review.status` (no
source-status validation) and appends one audit entry whose old value is
the literal dictionary `[("status", "pending")]`. -/
def reviewFeedback (st : ServiceState) (fid : String)
    (rev : FeedbackReview) (reviewer : User) (now : Nat) :
    Except ServiceError (FeedbackEvent × ServiceState) :=
  match dget st.feedback_store fid with
  | none => .error (.notFound fid)
  | some fb =>
      let fb' := { fb with
        status := rev.status,
        review_notes := some rev.notes,
        reviewed_by := some reviewer.id,
        reviewed_at := some now, updated_at := now }
      let st1 := { st with feedback_store := dset st.feedback_store fid fb' }
      let st2 := addAuditEntry st1 "feedback_reviewed" reviewer.id
        "feedback" fid (some (.mapVal [("status", "pending")]))
        (some (.mapVal [("status", rev.status.value), ("notes", rev.notes)]))
        ("Feedback reviewed by " ++ reviewer.username) now
      .ok (fb', st2)

/-- `FeedbackService.apply_feedback`: requires status `approved`, creates
the rule override, marks the event `applied` (writing `applied_at` and
`updated_at` but not the event's `applied_by`), and appends one audit
entry targeting the override id with the application's old/new values. -/
def applyFeedback (st : ServiceState) (fid : String)
    (app : FeedbackApplication) (applier : User) (now : Nat) :
    Except ServiceError (RuleOverride × ServiceState) :=
  match dget st.feedback_store fid with
  | none => .error (.notFound fid)
  | some fb =>
      if fb.status = .approved then
        let oid := generateOverrideId fb app now
        let ov : RuleOverride :=
          { id := oid, feedback_id := fid, rule_type := app.rule_type,
            rule_name := app.rule_name, old_value := app.old_value,
            new_value := app.new_value, applied_by := applier.id,
            applied_at := now,
            effective_from := match app.effective_from with
              | some t => t
              | none => now,
            effective_until := app.effective_until,
            description := app.description }
        let st1 := { st with rule_overrides := dset st.rule_overrides oid ov }
        let fb' := { fb with
          status := .applied, applied_at := some now, updated_at := now }
        let st2 := { st1 with feedback_store := dset st1.feedback_store fid fb' }
        let st3 := addAuditEntry st2 "feedback_applied" applier.id
          "rule_override" oid (some (.mapVal app.old_value))
          (some (.mapVal app.new_value))
          ("Feedback applied as rule override by " ++ applier.username) now
        .ok (ov, st3)
      else
        .error (.invalidState
          ("Feedback " ++ fid ++ " must be approved before application"))

/-- `FeedbackService.withdraw_feedback`: allows the original submitter or
a `finance_admin`, with no source-status restriction, sets the status to
`withdrawn`, and appends one audit entry recording the actual old
status. -/
def withdrawFeedback (st : ServiceState) (fid : String) (actor : User)
    (now : Nat) : Except ServiceError (FeedbackEvent × ServiceState) :=
  match dget st.feedback_store fid with
  | none => .error (.notFound fid)
  | some fb =>
      if actor.role ≠ .finance_admin ∧ fb.actor_id ≠ actor.id then
        .error (.permissionDenied
          "Only original submitter or admin can withdraw feedback")
      else
        let fb' := { fb with status := .withdrawn, updated_at := now }
        let st1 := { st with feedback_store := dset st.feedback_store fid fb' }
        let st2 := addAuditEntry st1 "feedback_withdrawn" actor.id
          "feedback" fid (some (.mapVal [("status", fb.status.value)]))
          (some (.mapVal [("status", "withdrawn")]))
          ("Feedback withdrawn by " ++ actor.username) now
        .ok (fb', st2)

/-- The keep-test of `FeedbackService.get_rule_overrides`: an override is
skipped when its `rule_type` misses the filter, when `effective_until` is
set and strictly past, or when `effective_from` is still in the future.
The `is_active` flag is never consulted. -/
def overrideKeep (ruleTypeFilter : Option String) (activeOnly : Bool)
    (now : Nat) (o : RuleOverride) : Bool :=
  (match ruleTypeFilter with
   | none => true
   | some rt => decide (o.rule_type = rt)) &&
  (if activeOnly then
     (match o.effective_until with
      | none => true
      | some u => decide (¬ u < now)) && decide (¬ o.effective_from > now)
   else true)

/-- `FeedbackService.get_rule_overrides`: filter the stored overrides in
insertion (creation) order, then stable-sort by `effective_from`
descending. -/
def getRuleOverrides (st : ServiceState) (ruleTypeFilter : Option String)
    (activeOnly : Bool) (now : Nat) : List RuleOverride :=
  sortStable (fun p q => decide (q.effective_from < p.effective_from))
    ((st.rule_overrides.map Prod.snd).filter
      (overrideKeep ruleTypeFilter activeOnly now))

/-! ### Search (`FeedbackService.search_feedback` and the pydantic
`FeedbackSearchRequest` bounds) -/

/-- `FeedbackSearchRequest`: the filter and pagination fields the service
reads.  `page`/`page_size` carry the pydantic bounds `ge=1` and
`ge=1, le=100`; the service also reads `sort_by`/`sort_order`, modelled
here with the documented defaults. -/
structure FeedbackSearchRequest where
  status : Option FeedbackStatus := none
  feedback_type : Option FeedbackType := none
  target_type : Option FeedbackTargetType := none
  actor_role : Option UserRole := none
  start_date : Option Nat := none
  end_date : Option Nat := none
  sort_by : String := "created_at"
  sort_order : String := "desc"
  page : Nat := 1
  page_size : Nat := 50
deriving DecidableEq

/-- `FeedbackSearchResponse` (the fields the service fills). -/
structure FeedbackSearchResponse where
  results : List FeedbackEvent
  total_count : Nat
  page : Nat
  page_size : Nat
deriving DecidableEq

/-- The filter loop of `search_feedback`: every given criterion must
match (dates keep events with `created_at` inside the closed range). -/
def searchKeep (req : FeedbackSearchRequest) (fb : FeedbackEvent) : Bool :=
  (match req.status with
   | none => true
   | some s => decide (fb.status = s)) &&
  (match req.feedback_type with
   | none => true
   | some t => decide (fb.feedback_type = t)) &&
  (match req.target_type with
   | none => true
   | some t => decide (fb.target_type = t)) &&
  (match req.actor_role with
   | none => true
   | some r => decide (fb.actor_role = r)) &&
  (match req.start_date with
   | none => true
   | some d => decide (¬ fb.created_at < d)) &&
  (match req.end_date with
   | none => true
   | some d => decide (¬ fb.created_at > d))

/-- The filtered list, in store (insertion) order. -/
def filterSearch (st : ServiceState) (req : FeedbackSearchRequest) :
    List FeedbackEvent :=
  (st.feedback_store.map Prod.snd).filter (searchKeep req)

/-- The sort step of `search_feedback`: stable sort by `created_at` or by
the status's string value, descending when `sort_order == "desc"`; any
other `sort_by` leaves the order unchanged. -/
def sortSearch (req : FeedbackSearchRequest) (l : List FeedbackEvent) :
    List FeedbackEvent :=
  if req.sort_by = "created_at" then
    if req.sort_order = "desc" then
      sortStable (fun p q => decide (q.created_at < p.created_at)) l
    else
      sortStable (fun p q => decide (p.created_at < q.created_at)) l
  else if req.sort_by = "status" then
    if req.sort_order = "desc" then
      sortStable (fun p q => decide (q.status.value < p.status.value)) l
    else
      sortStable (fun p q => decide (p.status.value < q.status.value)) l
  else l

/-- `FeedbackService.search_feedback`: filter, sort, then slice
`[(page-1)*page_size : page*page_size]` with `total_count` the size of
the filtered list before pagination. -/
def searchFeedbackService (st : ServiceState)
    (req : FeedbackSearchRequest) : FeedbackSearchResponse :=
  let filtered := filterSearch st req
  let sorted := sortSearch req filtered
  let startIdx := (req.page - 1) * req.page_size
  { results := (sorted.drop startIdx).take req.page_size,
    total_count := filtered.length,
    page := req.page, page_size := req.page_size }

/-- The pydantic bounds on `FeedbackSearchRequest.page`/`page_size`
(`Field(1, ge=1)` and `Field(50, ge=1, le=100)`), enforced by the
validation layer before the service runs; violations surface as an
invalid-argument (422) error instead of being clamped. -/
def searchEndpointSim (st : ServiceState) (req : FeedbackSearchRequest) :
    Except ServiceError FeedbackSearchResponse :=
  if 1 ≤ req.page ∧ 1 ≤ req.page_size ∧ req.page_size ≤ 100 then
    .ok (searchFeedbackService st req)
  else
    .error (.invalidArgument "page or page_size out of range")

/-! ### Router endpoints (`src/app/routers/feedback_router.py`) -/

/-- `submit_feedback_endpoint` (router lines 23-46): checks the
capability string `write:feedback` against the permission service's
table before delegating to submission. -/
def routerSubmitFeedback (st : ServiceState) (sub : FeedbackSubmission)
    (u : User) (now : Nat) :
    Except ServiceError (FeedbackEvent × ServiceState) :=
  if hasPermission u "write:feedback" then
    .ok (submitFeedback st sub u now)
  else
    .error (.permissionDenied
      "Insufficient permissions. Required: write:feedback")

/-- The body of the router's `withdraw_feedback` after its permission
gate (router lines 343-381): submitter-only check, source status must be
`pending` or `under_review`, then the status becomes `rejected` and the
withdrawal is annotated in the payload.  No audit entry is appended. -/
def routerWithdrawCore (st : ServiceState) (fid : String)
    (reason : String) (u : User) (now : Nat) :
    Except ServiceError (String × ServiceState) :=
  match dget st.feedback_store fid with
  | none => .error (.notFound fid)
  | some fb =>
      if fb.actor_id ≠ u.id then
        .error (.permissionDenied
          "Only the original submitter can withdraw feedback")
      else if fb.status ≠ .pending ∧ fb.status ≠ .under_review then
        .error (.invalidState
          "Feedback cannot be withdrawn in its current status")
      else
        let payload' := dset (dset (dset fb.payload
          "withdrawal_reason" reason)
          "withdrawn_by" (toString u.id))
          "withdrawn_at" (toString now)
        let fb' := { fb with
          status := .rejected, payload := payload', updated_at := now }
        let st1 := { st with feedback_store := dset st.feedback_store fid fb' }
        .ok ("Feedback withdrawn successfully", st1)

/-- `withdraw_feedback` router endpoint (lines 332-390): the
`check_permission(current_user, "write:feedback")` gate followed by the
core logic. -/
def routerWithdrawFeedback (st : ServiceState) (fid : String)
    (reason : String) (u : User) (now : Nat) :
    Except ServiceError (String × ServiceState) :=
  if hasPermission u "write:feedback" then
    routerWithdrawCore st fid reason u now
  else
    .error (.permissionDenied
      "Insufficient permissions. Required: write:feedback")

/-! ### Workflow steps (for the audit-trail invariant) -/

/-- One workflow operation: the state-changing entry points of the
service and the router's withdraw endpoint. -/
inductive WorkflowOp where
  | submitOp (sub : FeedbackSubmission) (u : User)
  | reviewOp (fid : String) (rev : FeedbackReview) (u : User)
  | applyOp (fid : String) (app : FeedbackApplication) (u : User)
  | withdrawOp (fid : String) (u : User)
  | routerWithdrawOp (fid : String) (reason : String) (u : User)

/-- Run one operation; a failed operation leaves the state unchanged
(the service raises before mutating). -/
def runOp (st : ServiceState) (op : WorkflowOp) (now : Nat) :
    ServiceState :=
  match op with
  | .submitOp sub u => (submitFeedback st sub u now).2
  | .reviewOp fid rev u =>
      match reviewFeedback st fid rev u now with
      | .ok (_, st') => st'
      | .error _ => st
  | .applyOp fid app u =>
      match applyFeedback st fid app u now with
      | .ok (_, st') => st'
      | .error _ => st
  | .withdrawOp fid u =>
      match withdrawFeedback st fid u now with
      | .ok (_, st') => st'
      | .error _ => st
  | .routerWithdrawOp fid reason u =>
      match routerWithdrawFeedback st fid reason u now with
      | .ok (_, st') => st'
      | .error _ => st

/-! ### Exemplar inputs for concrete instances -/

/-- An exemplar pending feedback event (submitted by user 2). -/
def fbPending : FeedbackEvent :=
  { id := "f1", actor_id := 2, actor_role := UserRole.marketing_user,
    feedback_type := FeedbackType.override,
    target_type := FeedbackTargetType.metric,
    target_id := none, payload := [],
    status := FeedbackStatus.pending, created_at := 0, updated_at := 0 }

/-- The exemplar event with another status. -/
def fbWith (s : FeedbackStatus) : FeedbackEvent :=
  { fbPending with status := s }

/-- A one-event service state holding the given event under id `f1`. -/
def stOf (fb : FeedbackEvent) : ServiceState := ⟨[("f1", fb)], [], []⟩

/-- An exemplar admin. -/
def adminUser : User := ⟨9, "adm", UserRole.finance_admin⟩

/-- The exemplar event's original submitter. -/
def subUser : User := ⟨2, "sub", UserRole.marketing_user⟩

/-- The exemplar submitter promoted to admin (same id). -/
def uAdminSub : User := ⟨2, "sub", UserRole.finance_admin⟩

/-- A non-admin user who is not the exemplar event's submitter. -/
def otherUser : User := ⟨5, "oth", UserRole.marketing_user⟩

/-- An exemplar feedback submission matching the exemplar event. -/
def subEx : FeedbackSubmission :=
  ⟨"2", UserRole.marketing_user, FeedbackType.override,
   FeedbackTargetType.metric, none, [], "please fix this metric", "medium"⟩

/-- An exemplar application payload. -/
def appEx : FeedbackApplication :=
  ⟨"attribution", "rule-7", [("weight", "1")], [("weight", "2")],
   none, none, "apply the fix"⟩

/-- An exemplar rule override whose `is_active` flag is `false` but whose
effectiveness window is open. -/
def ovInactive : RuleOverride :=
  ⟨"o1", "f1", "attribution", "rule-7", [], [], 9, 0, 0, none, false, "d"⟩

/-- A 25-event store (ids `0`..`24`, `created_at` equal to the index),
for the pagination instance. -/
def st25 : ServiceState :=
  ⟨(List.range 25).map (fun i =>
      (toString i, { fbPending with id := toString i, created_at := i })),
   [], []⟩

/-! ### Helper lemmas -/

theorem dget_dset_self {α : Type} (d : List (String × α)) (k : String)
    (v : α) : dget (dset d k v) k = some v := by
  induction d with
  | nil => simp [dget, dset]
  | cons hd tl ih =>
      by_cases h : k = hd.1
      · simp [dset, dget, h]
      · simp [dset, dget, h, ih]

theorem dget_dset_of_ne {α : Type} (d : List (String × α)) (k k' : String)
    (v : α) (h : k ≠ k') : dget (dset d k' v) k = dget d k := by
  induction d with
  | nil => simp [dget, dset, h]
  | cons hd tl ih =>
      by_cases h1 : k' = hd.1
      · subst h1
        simp [dset, dget, h, ih]
      · by_cases h2 : k = hd.1 <;> simp [dset, dget, h1, h2, ih]

theorem dset_of_dget_none {α : Type} (d : List (String × α)) (k : String)
    (v : α) (h : dget d k = none) : dset d k v = d ++ [(k, v)] := by
  induction d with
  | nil => simp [dset]
  | cons hd tl ih =>
      by_cases h1 : k = hd.1
      · simp [dget, h1] at h
      · simp [dget, h1] at h
        simp [dset, h1, ih h]

theorem mem_insOrd {α : Type} (bef : α → α → Bool) (x a : α)
    (l : List α) : a ∈ insOrd bef x l ↔ a = x ∨ a ∈ l := by
  induction l with
  | nil => simp [insOrd]
  | cons y ys ih =>
      cases hb : bef y x with
      | false => simp [insOrd, hb]
      | true =>
          simp only [insOrd, hb, if_pos, List.mem_cons, ih]
          tauto

theorem mem_sortStable {α : Type} (bef : α → α → Bool) (a : α)
    (l : List α) : a ∈ sortStable bef l ↔ a ∈ l := by
  induction l with
  | nil => simp [sortStable]
  | cons y ys ih => simp [sortStable, mem_insOrd, ih]

theorem pairwise_insOrd {α : Type} (bef : α → α → Bool)
    (hasym : ∀ a b, bef a b = true → bef b a = false)
    (htrans : ∀ a b c, bef b a = false → bef c b = false → bef c a = false)
    (x : α) (l : List α)
    (hl : List.Pairwise (fun a b => bef b a = false) l) :
    List.Pairwise (fun a b => bef b a = false) (insOrd bef x l) := by
  induction l with
  | nil => simp [insOrd]
  | cons y ys ih =>
      rcases List.pairwise_cons.mp hl with ⟨hy, hys⟩
      cases hb : bef y x with
      | true =>
          simp only [insOrd, hb, if_pos]
          refine List.pairwise_cons.mpr ⟨?_, ih hys⟩
          intro z hz
          rcases (mem_insOrd bef x z ys).mp hz with rfl | hzys
          · exact hasym y z hb
          · exact hy z hzys
      | false =>
          simp only [insOrd, hb]
          refine List.pairwise_cons.mpr ⟨?_, hl⟩
          intro z hz
          rcases List.mem_cons.mp hz with rfl | hzys
          · exact hb
          · exact htrans x y z hb (hy z hzys)

theorem pairwise_sortStable {α : Type} (bef : α → α → Bool)
    (hasym : ∀ a b, bef a b = true → bef b a = false)
    (htrans : ∀ a b c, bef b a = false → bef c b = false → bef c a = false)
    (l : List α) :
    List.Pairwise (fun a b => bef b a = false) (sortStable bef l) := by
  induction l with
  | nil => simp [sortStable]
  | cons y ys ih => exact pairwise_insOrd bef hasym htrans y _ ih

theorem filter_insOrd {α : Type} (bef : α → α → Bool) (p : α → Bool)
    (x : α) (l : List α)
    (hp : ∀ b, p b = true → p x = true → bef b x = false) :
    (insOrd bef x l).filter p =
      if p x then x :: l.filter p else l.filter p := by
  induction l with
  | nil => simp [insOrd, List.filter_cons]
  | cons y ys ih =>
      cases hb : bef y x with
      | true =>
          have hpy : ¬ (p y = true ∧ p x = true) := by
            rintro ⟨hy, hx⟩
            rw [hp y hy hx] at hb
            exact Bool.false_ne_true hb
          simp only [insOrd, hb, if_pos]
          cases hx : p x with
          | false =>
              simp only [hx] at ih ⊢
              simp only [Bool.false_eq_true, if_false] at ih ⊢
              simp [List.filter_cons, ih]
          | true =>
              have hy : p y = false := by
                cases hyv : p y with
                | false => rfl
                | true => exact absurd ⟨hyv, hx⟩ hpy
              simp only [hx] at ih ⊢
              simp [List.filter_cons, hy, ih]
      | false =>
          cases hx : p x with
          | false => simp [insOrd, hb, List.filter_cons, hx]
          | true => simp [insOrd, hb, List.filter_cons, hx]

theorem filter_sortStable {α : Type} (bef : α → α → Bool) (p : α → Bool)
    (l : List α) (hp : ∀ a b, p a = true → p b = true → bef a b = false) :
    (sortStable bef l).filter p = l.filter p := by
  induction l with
  | nil => simp [sortStable]
  | cons y ys ih =>
      rw [sortStable, filter_insOrd bef p y _ (fun b hb hy => hp b y hb hy)]
      cases hy : p y with
      | false => simp [List.filter_cons, hy, ih]
      | true => simp [List.filter_cons, hy, ih]

/-- Every workflow step either leaves the audit trail unchanged or
appends exactly one entry whose id is the old length plus one. -/
theorem auditStep (st : ServiceState) (op : WorkflowOp) (now : Nat) :
    (runOp st op now).audit_trail = st.audit_trail ∨
    ∃ e, (runOp st op now).audit_trail = st.audit_trail ++ [e] ∧
      e.id = st.audit_trail.length + 1 := by
  cases op with
  | submitOp sub u =>
      right
      exact ⟨_, rfl, rfl⟩
  | reviewOp fid rev u =>
      cases hres : reviewFeedback st fid rev u now with
      | error e => left; simp [runOp, hres]
      | ok val =>
          have hrun : runOp st (.reviewOp fid rev u) now = val.2 := by
            simp [runOp, hres]
          right
          unfold reviewFeedback at hres
          cases hd : dget st.feedback_store fid with
          | none => rw [hd] at hres; exact absurd hres (by simp)
          | some fb =>
              simp only [hd, Except.ok.injEq] at hres
              subst hres
              have ha : (runOp st (.reviewOp fid rev u) now).audit_trail =
                  st.audit_trail ++
                  [⟨st.audit_trail.length + 1, "feedback_reviewed", u.id,
                    "feedback", fid,
                    some (.mapVal [("status", "pending")]),
                    some (.mapVal [("status", rev.status.value),
                      ("notes", rev.notes)]),
                    "Feedback reviewed by " ++ u.username, now⟩] := by
                rw [hrun]
                rfl
              exact ⟨_, ha, rfl⟩
  | applyOp fid app u =>
      cases hres : applyFeedback st fid app u now with
      | error e => left; simp [runOp, hres]
      | ok val =>
          have hrun : runOp st (.applyOp fid app u) now = val.2 := by
            simp [runOp, hres]
          unfold applyFeedback at hres
          cases hd : dget st.feedback_store fid with
          | none => rw [hd] at hres; exact absurd hres (by simp)
          | some fb =>
              simp only [hd] at hres
              by_cases hst : fb.status = FeedbackStatus.approved
              · rw [if_pos hst] at hres
                simp only [Except.ok.injEq] at hres
                subst hres
                right
                have ha : (runOp st (.applyOp fid app u) now).audit_trail =
                    st.audit_trail ++
                    [⟨st.audit_trail.length + 1, "feedback_applied", u.id,
                      "rule_override", generateOverrideId fb app now,
                      some (.mapVal app.old_value),
                      some (.mapVal app.new_value),
                      "Feedback applied as rule override by " ++ u.username,
                      now⟩] := by
                  rw [hrun]
                  rfl
                exact ⟨_, ha, rfl⟩
              · rw [if_neg hst] at hres
                exact absurd hres (by simp)
  | withdrawOp fid u =>
      cases hres : withdrawFeedback st fid u now with
      | error e => left; simp [runOp, hres]
      | ok val =>
          have hrun : runOp st (.withdrawOp fid u) now = val.2 := by
            simp [runOp, hres]
          unfold withdrawFeedback at hres
          cases hd : dget st.feedback_store fid with
          | none => rw [hd] at hres; exact absurd hres (by simp)
          | some fb =>
              simp only [hd] at hres
              by_cases hperm :
                  u.role ≠ UserRole.finance_admin ∧ fb.actor_id ≠ u.id
              · rw [if_pos hperm] at hres
                exact absurd hres (by simp)
              · rw [if_neg hperm] at hres
                simp only [Except.ok.injEq] at hres
                subst hres
                right
                have ha : (runOp st (.withdrawOp fid u) now).audit_trail =
                    st.audit_trail ++
                    [⟨st.audit_trail.length + 1, "feedback_withdrawn", u.id,
                      "feedback", fid,
                      some (.mapVal [("status", fb.status.value)]),
                      some (.mapVal [("status", "withdrawn")]),
                      "Feedback withdrawn by " ++ u.username, now⟩] := by
                  rw [hrun]
                  rfl
                exact ⟨_, ha, rfl⟩
  | routerWithdrawOp fid reason u =>
      cases hres : routerWithdrawFeedback st fid reason u now with
      | error e => left; simp [runOp, hres]
      | ok val =>
          have hrun : runOp st (.routerWithdrawOp fid reason u) now
              = val.2 := by
            simp [runOp, hres]
          left
          unfold routerWithdrawFeedback at hres
          by_cases hgate : hasPermission u "write:feedback" = true
          · rw [if_pos hgate] at hres
            unfold routerWithdrawCore at hres
            cases hd : dget st.feedback_store fid with
            | none => rw [hd] at hres; exact absurd hres (by simp)
            | some fb =>
                simp only [hd] at hres
                by_cases h1 : fb.actor_id ≠ u.id
                · rw [if_pos h1] at hres
                  exact absurd hres (by simp)
                · rw [if_neg h1] at hres
                  by_cases h2 : fb.status ≠ FeedbackStatus.pending ∧
                      fb.status ≠ FeedbackStatus.under_review
                  · rw [if_pos h2] at hres
                    exact absurd hres (by simp)
                  · rw [if_neg h2] at hres
                    simp only [Except.ok.injEq] at hres
                    subst hres
                    rw [hrun]
          · rw [if_neg hgate] at hres
            exact absurd hres (by simp)

/-! ### Claim C9 -/

/-- C9: the role-to-capability mapping is a static pure lookup over
exactly the four roles `finance_admin`, `strategy_analyst`,
`marketing_user`, `read_only`, and the `finance_admin` role's capability
set is a superset of every other role's: whatever capability any role
holds, `finance_admin` holds as well. -/
theorem c9_role_table :
    (∀ r : UserRole, r = .finance_admin ∨ r = .strategy_analyst ∨
      r = .marketing_user ∨ r = .read_only) ∧
    (∀ (r : UserRole) (c : String), roleHasPermission r c = true →
      roleHasPermission .finance_admin c = true) := by
  constructor
  · intro r
    cases r
    · exact Or.inl rfl
    · exact Or.inr (Or.inl rfl)
    · exact Or.inr (Or.inr (Or.inl rfl))
    · exact Or.inr (Or.inr (Or.inr rfl))
  · have hsa : ∀ c ∈ rolePermissions UserRole.strategy_analyst,
        c ∈ rolePermissions UserRole.finance_admin := by decide
    have hmu : ∀ c ∈ rolePermissions UserRole.marketing_user,
        c ∈ rolePermissions UserRole.finance_admin := by decide
    have hro : ∀ c ∈ rolePermissions UserRole.read_only,
        c ∈ rolePermissions UserRole.finance_admin := by decide
    intro r c h
    simp only [roleHasPermission, decide_eq_true_eq] at h ⊢
    cases r with
    | finance_admin => exact h
    | strategy_analyst => exact hsa c h
    | marketing_user => exact hmu c h
    | read_only => exact hro c h

/-- Witness for C9: `marketing_user` holds `feedback:write`, hence so
does `finance_admin`. -/
theorem c9_witness :
    roleHasPermission .marketing_user "feedback:write" = true ∧
    roleHasPermission .finance_admin "feedback:write" = true :=
  ⟨by decide,
   c9_role_table.2 .marketing_user "feedback:write" (by decide)⟩

/-! ### Claim C10 -/

/-- C10: the audit trail is append-only with consecutively numbered
entries: if the trail's ids are exactly 1..n in insertion order, then any
workflow operation (submit, review, apply, withdraw, router withdraw)
only appends, and afterwards the ids are again exactly 1..length. -/
theorem c10_audit_append_only (st : ServiceState) (op : WorkflowOp)
    (now : Nat)
    (h : st.audit_trail.map (fun e => e.id) =
      List.range' 1 st.audit_trail.length) :
    (∃ t, (runOp st op now).audit_trail = st.audit_trail ++ t) ∧
    (runOp st op now).audit_trail.map (fun e => e.id) =
      List.range' 1 (runOp st op now).audit_trail.length := by
  rcases auditStep st op now with heq | ⟨e, heq, hid⟩
  · rw [heq]
    exact ⟨⟨[], by simp⟩, h⟩
  · rw [heq]
    refine ⟨⟨[e], rfl⟩, ?_⟩
    rw [List.map_append, h, List.length_append]
    simp [hid, List.range'_1_concat, Nat.add_comm]

/-- Witness for C10 at a concrete input: the empty state and a review
operation. -/
theorem c10_witness :
    (∃ t, (runOp ⟨[], [], []⟩
        (.reviewOp "x" ⟨.approved, "n"⟩ ⟨1, "u", .finance_admin⟩)
        0).audit_trail = ([] : List AuditEntry) ++ t) ∧
    (runOp ⟨[], [], []⟩
        (.reviewOp "x" ⟨.approved, "n"⟩ ⟨1, "u", .finance_admin⟩)
        0).audit_trail.map (fun e => e.id) =
      List.range' 1 (runOp ⟨[], [], []⟩
        (.reviewOp "x" ⟨.approved, "n"⟩ ⟨1, "u", .finance_admin⟩)
        0).audit_trail.length :=
  c10_audit_append_only ⟨[], [], []⟩
    (.reviewOp "x" ⟨.approved, "n"⟩ ⟨1, "u", .finance_admin⟩) 0 (by simp)

/-! ### Claim C1 -/

/-- C1 counterexample: reviewing an event whose status is the terminal
`applied` succeeds and changes the status to `rejected`, instead of
failing with an invalid-transition error and leaving the status
unchanged as the claim requires. -/
theorem c1_counterexample :
    ∃ ev' st',
      reviewFeedback (stOf (fbWith .applied)) "f1" ⟨.rejected, "undo"⟩
        adminUser 5 = .ok (ev', st') ∧
      ev'.status = FeedbackStatus.rejected ∧
      dget st'.feedback_store "f1" = some ev' :=
  ⟨_, _, rfl, by decide, by decide⟩

/-- C1 (amended): the only source-status guard in the service is
`apply_feedback`'s check for `approved`.  `review_feedback` validates
existence only: it succeeds from every source status — including the
terminal `applied`, `rejected` and `withdrawn` — and sets the status to
whatever status the review carries; the service's `withdraw_feedback`
likewise succeeds from every source status for an authorized actor.
Only `apply_feedback` rejects (with an invalid-state error, leaving the
store unchanged) when the source status is not `approved`. -/
theorem c1_amended (st : ServiceState) (fid : String) (fb : FeedbackEvent)
    (rev : FeedbackReview) (u : User) (now : Nat)
    (hd : dget st.feedback_store fid = some fb) :
    (∃ st', reviewFeedback st fid rev u now =
        .ok ({ fb with
                status := rev.status, review_notes := some rev.notes,
                reviewed_by := some u.id, reviewed_at := some now,
                updated_at := now }, st') ∧
      dget st'.feedback_store fid =
        some { fb with
                status := rev.status, review_notes := some rev.notes,
                reviewed_by := some u.id, reviewed_at := some now,
                updated_at := now }) ∧
    (∀ app, fb.status ≠ FeedbackStatus.approved →
      applyFeedback st fid app u now = .error (.invalidState
        ("Feedback " ++ fid ++ " must be approved before application"))) ∧
    ((u.role = UserRole.finance_admin ∨ fb.actor_id = u.id) →
      ∃ st', withdrawFeedback st fid u now =
        .ok ({ fb with
                status := FeedbackStatus.withdrawn,
                updated_at := now }, st')) := by
  refine ⟨?_, ?_, ?_⟩
  · simp only [reviewFeedback, hd]
    exact ⟨_, rfl, dget_dset_self _ _ _⟩
  · intro app happ
    simp only [applyFeedback, hd]
    rw [if_neg happ]
  · intro hperm
    have hcond : ¬ (u.role ≠ UserRole.finance_admin ∧
        fb.actor_id ≠ u.id) := by
      rcases hperm with h1 | h2
      · intro hc
        exact hc.1 h1
      · intro hc
        exact hc.2 h2
    simp only [withdrawFeedback, hd]
    rw [if_neg hcond]
    exact ⟨_, rfl⟩

/-- Witness for C1's amended theorem at a concrete input: a pending
event reviewed into `approved` by an admin. -/
theorem c1_witness :
    dget (stOf fbPending).feedback_store "f1" = some fbPending ∧
    (∃ st', reviewFeedback (stOf fbPending) "f1" ⟨.approved, "ok"⟩
        adminUser 7 =
        .ok ({ fbPending with
                status := FeedbackStatus.approved,
                review_notes := some "ok",
                reviewed_by := some adminUser.id, reviewed_at := some 7,
                updated_at := 7 }, st') ∧
      dget st'.feedback_store "f1" =
        some { fbPending with
                status := FeedbackStatus.approved,
                review_notes := some "ok",
                reviewed_by := some adminUser.id, reviewed_at := some 7,
                updated_at := 7 }) :=
  ⟨by decide,
   (c1_amended (stOf fbPending) "f1" fbPending ⟨.approved, "ok"⟩
     adminUser 7 (by decide)).1⟩

/-! ### Claim C2 -/

/-- C2 counterexample: reviewing an event whose status is `under_review`
succeeds, and the single appended audit entry records the old status as
the literal `pending` — not the event's actual status before the
transition (`under_review`). -/
theorem c2_counterexample :
    ∃ ev' st',
      reviewFeedback (stOf (fbWith .under_review)) "f1" ⟨.approved, "ok"⟩
        adminUser 5 = .ok (ev', st') ∧
      st'.audit_trail.map (fun e => e.old_value) =
        [some (.mapVal [("status", "pending")])] ∧
      (fbWith FeedbackStatus.under_review).status.value ≠ "pending" :=
  ⟨_, _, rfl, by decide, by decide⟩

/-- C2 (amended): every successful service transition appends exactly
one audit entry carrying the acting user's id.  The submit and withdraw
entries carry the event's id and the true old/new statuses; the review
entry always records the old status as the literal `pending`, whatever
the actual prior status was; the apply entry targets the new override's
id (not the event's) and carries the application's old/new value
mappings rather than statuses; the router's withdraw endpoint appends no
audit entry at all. -/
theorem c2_amended (st : ServiceState) (fid reason : String)
    (fb : FeedbackEvent) (sub : FeedbackSubmission)
    (rev : FeedbackReview) (app : FeedbackApplication) (u : User)
    (now : Nat) (hd : dget st.feedback_store fid = some fb) :
    ((submitFeedback st sub u now).2.audit_trail = st.audit_trail ++
      [⟨st.audit_trail.length + 1, "feedback_submitted", u.id, "feedback",
        (submitFeedback st sub u now).1.id, none,
        some (.eventVal (submitFeedback st sub u now).1),
        "Feedback submitted by " ++ u.username, now⟩]) ∧
    (∃ ev' st2, reviewFeedback st fid rev u now = .ok (ev', st2) ∧
      st2.audit_trail = st.audit_trail ++
      [⟨st.audit_trail.length + 1, "feedback_reviewed", u.id, "feedback",
        fid, some (.mapVal [("status", "pending")]),
        some (.mapVal [("status", rev.status.value), ("notes", rev.notes)]),
        "Feedback reviewed by " ++ u.username, now⟩]) ∧
    (fb.status = FeedbackStatus.approved →
      ∃ ov st2, applyFeedback st fid app u now = .ok (ov, st2) ∧
      st2.audit_trail = st.audit_trail ++
      [⟨st.audit_trail.length + 1, "feedback_applied", u.id,
        "rule_override", ov.id, some (.mapVal app.old_value),
        some (.mapVal app.new_value),
        "Feedback applied as rule override by " ++ u.username, now⟩]) ∧
    ((u.role = UserRole.finance_admin ∨ fb.actor_id = u.id) →
      ∃ ev' st2, withdrawFeedback st fid u now = .ok (ev', st2) ∧
      st2.audit_trail = st.audit_trail ++
      [⟨st.audit_trail.length + 1, "feedback_withdrawn", u.id, "feedback",
        fid, some (.mapVal [("status", fb.status.value)]),
        some (.mapVal [("status", "withdrawn")]),
        "Feedback withdrawn by " ++ u.username, now⟩]) ∧
    ((fb.actor_id = u.id ∧ (fb.status = FeedbackStatus.pending ∨
        fb.status = FeedbackStatus.under_review)) →
      ∃ st2, routerWithdrawCore st fid reason u now =
        .ok ("Feedback withdrawn successfully", st2) ∧
      st2.audit_trail = st.audit_trail) := by
  refine ⟨rfl, ?_, ?_, ?_, ?_⟩
  · simp only [reviewFeedback, hd]
    exact ⟨_, _, rfl, rfl⟩
  · intro happr
    simp only [applyFeedback, hd]
    rw [if_pos happr]
    exact ⟨_, _, rfl, rfl⟩
  · intro hperm
    have hcond : ¬ (u.role ≠ UserRole.finance_admin ∧
        fb.actor_id ≠ u.id) := by
      rcases hperm with h1 | h2
      · intro hc
        exact hc.1 h1
      · intro hc
        exact hc.2 h2
    simp only [withdrawFeedback, hd]
    rw [if_neg hcond]
    exact ⟨_, _, rfl, rfl⟩
  · rintro ⟨hown, hstatus⟩
    have h1 : ¬ fb.actor_id ≠ u.id := by
      intro hc
      exact hc hown
    have h2 : ¬ (fb.status ≠ FeedbackStatus.pending ∧
        fb.status ≠ FeedbackStatus.under_review) := by
      rcases hstatus with hs | hs
      · intro hc
        exact hc.1 hs
      · intro hc
        exact hc.2 hs
    simp only [routerWithdrawCore, hd]
    rw [if_neg h1, if_neg h2]
    exact ⟨_, rfl, rfl⟩

/-- Witness for C2's amended theorem: concrete review, apply and
withdraw runs on an approved event (actor both submitter and admin), and
a concrete router-withdraw run on a pending event. -/
theorem c2_witness :
    (∃ ev' st2, reviewFeedback (stOf (fbWith .approved)) "f1"
        ⟨.rejected, "no"⟩ uAdminSub 7 = .ok (ev', st2) ∧
      st2.audit_trail = (stOf (fbWith .approved)).audit_trail ++
      [⟨(stOf (fbWith .approved)).audit_trail.length + 1,
        "feedback_reviewed", uAdminSub.id, "feedback", "f1",
        some (.mapVal [("status", "pending")]),
        some (.mapVal [("status", FeedbackStatus.rejected.value),
          ("notes", "no")]),
        "Feedback reviewed by " ++ uAdminSub.username, 7⟩]) ∧
    (∃ ov st2, applyFeedback (stOf (fbWith .approved)) "f1" appEx
        uAdminSub 7 = .ok (ov, st2) ∧
      st2.audit_trail = (stOf (fbWith .approved)).audit_trail ++
      [⟨(stOf (fbWith .approved)).audit_trail.length + 1,
        "feedback_applied", uAdminSub.id, "rule_override", ov.id,
        some (.mapVal appEx.old_value), some (.mapVal appEx.new_value),
        "Feedback applied as rule override by " ++ uAdminSub.username,
        7⟩]) ∧
    (∃ ev' st2, withdrawFeedback (stOf (fbWith .approved)) "f1"
        uAdminSub 7 = .ok (ev', st2) ∧
      st2.audit_trail = (stOf (fbWith .approved)).audit_trail ++
      [⟨(stOf (fbWith .approved)).audit_trail.length + 1,
        "feedback_withdrawn", uAdminSub.id, "feedback", "f1",
        some (.mapVal [("status", (fbWith .approved).status.value)]),
        some (.mapVal [("status", "withdrawn")]),
        "Feedback withdrawn by " ++ uAdminSub.username, 7⟩]) ∧
    (∃ st2, routerWithdrawCore (stOf fbPending) "f1" "mistake" subUser 3 =
        .ok ("Feedback withdrawn successfully", st2) ∧
      st2.audit_trail = (stOf fbPending).audit_trail) :=
  ⟨(c2_amended (stOf (fbWith .approved)) "f1" "r" (fbWith .approved)
      subEx ⟨.rejected, "no"⟩ appEx uAdminSub 7 (by decide)).2.1,
   (c2_amended (stOf (fbWith .approved)) "f1" "r" (fbWith .approved)
      subEx ⟨.rejected, "no"⟩ appEx uAdminSub 7 (by decide)).2.2.1
      (by decide),
   (c2_amended (stOf (fbWith .approved)) "f1" "r" (fbWith .approved)
      subEx ⟨.rejected, "no"⟩ appEx uAdminSub 7 (by decide)).2.2.2.1
      (by decide),
   (c2_amended (stOf fbPending) "f1" "mistake" fbPending
      subEx ⟨.rejected, "no"⟩ appEx subUser 3 (by decide)).2.2.2.2
      (by decide)⟩

/-! ### Claim C3 -/

/-- C3 counterexample: applying an approved event succeeds and sets
`applied_at`, but the stored event's `applied_by` remains `none` — the
claim's requirement that the event record `applied_by` fails (only the
rule override records it). -/
theorem c3_counterexample :
    ∃ ov st' ev',
      applyFeedback (stOf (fbWith .approved)) "f1" appEx adminUser 5 =
        .ok (ov, st') ∧
      dget st'.feedback_store "f1" = some ev' ∧
      ev'.status = FeedbackStatus.applied ∧
      ev'.applied_at = some 5 ∧
      ev'.applied_by = none :=
  ⟨_, _, _, rfl, rfl, rfl, rfl, rfl⟩

/-- C3 (amended): `apply_feedback` succeeds iff the event's status is
exactly `approved`.  On success it creates exactly one rule override
(appended to the override store when its generated id is fresh) whose
`feedback_id` is the event's id and whose `applied_by` is the applier;
the event's status becomes `applied` and its `applied_at` is set, but
the event's own `applied_by` field is left unchanged (`none` for
submitted events).  On any other status it fails with an invalid-state
error. -/
theorem c3_amended (st : ServiceState) (fid : String) (fb : FeedbackEvent)
    (app : FeedbackApplication) (u : User) (now : Nat)
    (hd : dget st.feedback_store fid = some fb) :
    (fb.status = FeedbackStatus.approved →
      ∃ ov st', applyFeedback st fid app u now = .ok (ov, st') ∧
        ov.id = generateOverrideId fb app now ∧
        ov.feedback_id = fid ∧
        ov.applied_by = u.id ∧
        ov.is_active = true ∧
        st'.rule_overrides = dset st.rule_overrides ov.id ov ∧
        (dget st.rule_overrides ov.id = none →
          st'.rule_overrides = st.rule_overrides ++ [(ov.id, ov)]) ∧
        dget st'.feedback_store fid =
          some { fb with
                  status := FeedbackStatus.applied,
                  applied_at := some now, updated_at := now }) ∧
    (fb.status ≠ FeedbackStatus.approved →
      applyFeedback st fid app u now = .error (.invalidState
        ("Feedback " ++ fid ++ " must be approved before application"))) := by
  constructor
  · intro happr
    simp only [applyFeedback, hd]
    rw [if_pos happr]
    refine ⟨_, _, rfl, rfl, rfl, rfl, rfl, rfl, ?_, ?_⟩
    · intro hnone
      exact dset_of_dget_none _ _ _ hnone
    · exact dget_dset_self _ _ _
  · intro hne
    simp only [applyFeedback, hd]
    rw [if_neg hne]

/-- Witness for C3's amended theorem: a concrete apply on an approved
event, and a concrete rejection on a pending event. -/
theorem c3_witness :
    (∃ ov st', applyFeedback (stOf (fbWith .approved)) "f1" appEx
        adminUser 7 = .ok (ov, st') ∧
      ov.id = generateOverrideId (fbWith .approved) appEx 7 ∧
      ov.feedback_id = "f1" ∧
      ov.applied_by = adminUser.id ∧
      ov.is_active = true ∧
      st'.rule_overrides =
        dset (stOf (fbWith .approved)).rule_overrides ov.id ov ∧
      (dget (stOf (fbWith .approved)).rule_overrides ov.id = none →
        st'.rule_overrides =
          (stOf (fbWith .approved)).rule_overrides ++ [(ov.id, ov)]) ∧
      dget st'.feedback_store "f1" =
        some { fbWith .approved with
                status := FeedbackStatus.applied,
                applied_at := some 7, updated_at := 7 }) ∧
    applyFeedback (stOf fbPending) "f1" appEx adminUser 7 =
      .error (.invalidState
        ("Feedback " ++ "f1" ++ " must be approved before application")) :=
  ⟨(c3_amended (stOf (fbWith .approved)) "f1" (fbWith .approved) appEx
      adminUser 7 (by decide)).1 rfl,
   (c3_amended (stOf fbPending) "f1" fbPending appEx
      adminUser 7 (by decide)).2 (by decide)⟩

/-! ### Claim C4 -/

/-- C4 counterexample: the service's `withdraw_feedback` succeeds on an
event whose status is the terminal `applied` (withdrawn by its original
submitter), although the claim allows withdrawal only from `pending` or
`under_review`. -/
theorem c4_counterexample :
    ∃ ev' st',
      withdrawFeedback (stOf (fbWith .applied)) "f1" subUser 5 =
        .ok (ev', st') ∧
      ev'.status = FeedbackStatus.withdrawn ∧
      (fbWith FeedbackStatus.applied).status ≠ FeedbackStatus.pending ∧
      (fbWith FeedbackStatus.applied).status ≠
        FeedbackStatus.under_review :=
  ⟨_, _, rfl, rfl, by decide, by decide⟩

/-- C4 (amended): there are two withdraw implementations.  The service's
`withdraw_feedback` succeeds iff the actor is the original submitter or
a `finance_admin`, from any source status whatsoever, and sets the
distinct status `withdrawn`.  The router's withdraw endpoint checks the
capability string `write:feedback`, which no role's permission list
contains, so the endpoint denies every caller; its core logic (behind
the gate) accepts only the original submitter (admins are not exempt),
requires source status `pending` or `under_review`, and on success sets
the status to `rejected` — not `withdrawn` — with withdrawal annotations
written into the payload. -/
theorem c4_amended (st : ServiceState) (fid reason : String)
    (fb : FeedbackEvent) (u : User) (now : Nat)
    (hd : dget st.feedback_store fid = some fb) :
    ((u.role = UserRole.finance_admin ∨ fb.actor_id = u.id) →
      ∃ st', withdrawFeedback st fid u now =
        .ok ({ fb with
                status := FeedbackStatus.withdrawn,
                updated_at := now }, st') ∧
        dget st'.feedback_store fid =
          some { fb with
                  status := FeedbackStatus.withdrawn,
                  updated_at := now }) ∧
    ((u.role ≠ UserRole.finance_admin ∧ fb.actor_id ≠ u.id) →
      withdrawFeedback st fid u now = .error (.permissionDenied
        "Only original submitter or admin can withdraw feedback")) ∧
    (routerWithdrawFeedback st fid reason u now =
      .error (.permissionDenied
        "Insufficient permissions. Required: write:feedback")) ∧
    ((fb.actor_id = u.id ∧ (fb.status = FeedbackStatus.pending ∨
        fb.status = FeedbackStatus.under_review)) →
      ∃ st', routerWithdrawCore st fid reason u now =
        .ok ("Feedback withdrawn successfully", st') ∧
        dget st'.feedback_store fid =
          some { fb with
                  status := FeedbackStatus.rejected,
                  payload := dset (dset (dset fb.payload
                    "withdrawal_reason" reason)
                    "withdrawn_by" (toString u.id))
                    "withdrawn_at" (toString now),
                  updated_at := now }) ∧
    (fb.actor_id ≠ u.id →
      routerWithdrawCore st fid reason u now = .error (.permissionDenied
        "Only the original submitter can withdraw feedback")) ∧
    ((fb.actor_id = u.id ∧ fb.status ≠ FeedbackStatus.pending ∧
        fb.status ≠ FeedbackStatus.under_review) →
      routerWithdrawCore st fid reason u now = .error (.invalidState
        "Feedback cannot be withdrawn in its current status")) := by
  have hgate : hasPermission u "write:feedback" = false := by
    cases hrole : u.role <;>
      simp [hasPermission, roleHasPermission, hrole, rolePermissions]
  refine ⟨?_, ?_, ?_, ?_, ?_, ?_⟩
  · intro hperm
    have hcond : ¬ (u.role ≠ UserRole.finance_admin ∧
        fb.actor_id ≠ u.id) := by
      rcases hperm with h1 | h2
      · intro hc
        exact hc.1 h1
      · intro hc
        exact hc.2 h2
    simp only [withdrawFeedback, hd]
    rw [if_neg hcond]
    exact ⟨_, rfl, dget_dset_self _ _ _⟩
  · intro hcond
    simp only [withdrawFeedback, hd]
    rw [if_pos hcond]
  · simp only [routerWithdrawFeedback, hgate]
    simp
  · rintro ⟨hown, hstatus⟩
    have h1 : ¬ fb.actor_id ≠ u.id := by
      intro hc
      exact hc hown
    have h2 : ¬ (fb.status ≠ FeedbackStatus.pending ∧
        fb.status ≠ FeedbackStatus.under_review) := by
      rcases hstatus with hs | hs
      · intro hc
        exact hc.1 hs
      · intro hc
        exact hc.2 hs
    simp only [routerWithdrawCore, hd]
    rw [if_neg h1, if_neg h2]
    exact ⟨_, rfl, dget_dset_self _ _ _⟩
  · intro hne
    simp only [routerWithdrawCore, hd]
    rw [if_pos hne]
  · rintro ⟨hown, hs1, hs2⟩
    have h1 : ¬ fb.actor_id ≠ u.id := by
      intro hc
      exact hc hown
    simp only [routerWithdrawCore, hd]
    rw [if_neg h1, if_pos ⟨hs1, hs2⟩]

/-- Witness for C4's amended theorem: concrete service withdrawals (by
the submitter from `pending`; denied for an unrelated user), the
endpoint's universal denial, and concrete router-core runs (success from
`pending` by the submitter; denial for a non-submitter; denial from
`applied`). -/
theorem c4_witness :
    (∃ st', withdrawFeedback (stOf fbPending) "f1" subUser 3 =
        .ok ({ fbPending with
                status := FeedbackStatus.withdrawn,
                updated_at := 3 }, st') ∧
      dget st'.feedback_store "f1" =
        some { fbPending with
                status := FeedbackStatus.withdrawn, updated_at := 3 }) ∧
    (withdrawFeedback (stOf fbPending) "f1" otherUser 3 =
      .error (.permissionDenied
        "Only original submitter or admin can withdraw feedback")) ∧
    (routerWithdrawFeedback (stOf fbPending) "f1" "why" subUser 3 =
      .error (.permissionDenied
        "Insufficient permissions. Required: write:feedback")) ∧
    (∃ st', routerWithdrawCore (stOf fbPending) "f1" "why" subUser 3 =
        .ok ("Feedback withdrawn successfully", st') ∧
      dget st'.feedback_store "f1" =
        some { fbPending with
                status := FeedbackStatus.rejected,
                payload := dset (dset (dset fbPending.payload
                  "withdrawal_reason" "why")
                  "withdrawn_by" (toString subUser.id))
                  "withdrawn_at" (toString 3),
                updated_at := 3 }) ∧
    (routerWithdrawCore (stOf fbPending) "f1" "why" otherUser 3 =
      .error (.permissionDenied
        "Only the original submitter can withdraw feedback")) ∧
    (routerWithdrawCore (stOf (fbWith .applied)) "f1" "why" subUser 3 =
      .error (.invalidState
        "Feedback cannot be withdrawn in its current status")) :=
  ⟨(c4_amended (stOf fbPending) "f1" "why" fbPending subUser 3
      (by decide)).1 (by decide),
   (c4_amended (stOf fbPending) "f1" "why" fbPending otherUser 3
      (by decide)).2.1 (by decide),
   (c4_amended (stOf fbPending) "f1" "why" fbPending subUser 3
      (by decide)).2.2.1,
   (c4_amended (stOf fbPending) "f1" "why" fbPending subUser 3
      (by decide)).2.2.2.1 (by decide),
   (c4_amended (stOf fbPending) "f1" "why" fbPending otherUser 3
      (by decide)).2.2.2.2.1 (by decide),
   (c4_amended (stOf (fbWith .applied)) "f1" "why" (fbWith .applied)
      subUser 3 (by decide)).2.2.2.2.2 (by decide)⟩

/-! ### Claim C5 -/

/-- C5 counterexample: an override whose `is_active` flag is `false` but
whose effectiveness window is open is still returned by
`get_rule_overrides` — the flag is never consulted, contradicting the
claim's `is_active` conjunct. -/
theorem c5_counterexample :
    ovInactive.is_active = false ∧
    ovInactive ∈ getRuleOverrides ⟨[], [("o1", ovInactive)], []⟩
      none true 5 :=
  ⟨rfl, by decide⟩

/-- C5 (amended): with the default filters, `get_rule_overrides` returns
an override iff `effective_from <= now` and (`effective_until` is null
or `>= now`); the `is_active` flag plays no role.  The result is sorted
by `effective_from` descending, and within each `effective_from` value
the overrides appear in creation (insertion) order. -/
theorem c5_amended (st : ServiceState) (now : Nat) :
    (∀ o, o ∈ getRuleOverrides st none true now ↔
      (o ∈ st.rule_overrides.map Prod.snd ∧ o.effective_from ≤ now ∧
        (o.effective_until = none ∨
         ∃ u, o.effective_until = some u ∧ now ≤ u))) ∧
    List.Pairwise (fun p q => q.effective_from ≤ p.effective_from)
      (getRuleOverrides st none true now) ∧
    (∀ k, (getRuleOverrides st none true now).filter
        (fun o => decide (o.effective_from = k)) =
      ((st.rule_overrides.map Prod.snd).filter
        (overrideKeep none true now)).filter
        (fun o => decide (o.effective_from = k))) := by
  have hkeep : ∀ o : RuleOverride, overrideKeep none true now o = true ↔
      (o.effective_from ≤ now ∧
        (o.effective_until = none ∨
         ∃ u, o.effective_until = some u ∧ now ≤ u)) := by
    intro o
    cases hu : o.effective_until with
    | none => simp [overrideKeep, hu, Nat.not_lt]
    | some ub =>
        simp only [overrideKeep, hu, if_true, true_and, Bool.and_eq_true,
          decide_eq_true_eq, Nat.not_lt, reduceCtorEq, false_or,
          Option.some.injEq]
        constructor
        · intro hx
          exact ⟨hx.2, ub, rfl, hx.1⟩
        · rintro ⟨hof, u1, hu1, hle⟩
          subst hu1
          exact ⟨hle, hof⟩
  refine ⟨?_, ?_, ?_⟩
  · intro o
    rw [getRuleOverrides, mem_sortStable, List.mem_filter, hkeep o]
  · have hp := pairwise_sortStable
      (fun p q : RuleOverride => decide (q.effective_from < p.effective_from))
      (by
        intro a b h
        simp only [decide_eq_true_eq] at h
        simp only [decide_eq_false_iff_not]
        omega)
      (by
        intro a b c h1 h2
        simp only [decide_eq_false_iff_not] at h1 h2 ⊢
        omega)
      ((st.rule_overrides.map Prod.snd).filter (overrideKeep none true now))
    rw [getRuleOverrides]
    refine hp.imp ?_
    intro a b h
    simp only [decide_eq_false_iff_not] at h
    omega
  · intro k
    rw [getRuleOverrides]
    refine filter_sortStable _ _ _ ?_
    intro a b ha hb
    simp only [decide_eq_true_eq] at ha hb
    simp only [decide_eq_false_iff_not]
    omega

/-! ### Claim C6 -/

/-- C6 evidence of a code bug: the permission service's static table
grants `feedback:write` to `marketing_user` (so the claim's premise
holds), but the submit endpoint checks the differently-ordered
capability string `write:feedback`, which no role's entry in that table
contains — so every submission attempt, including one by a
`marketing_user`, is rejected with a permission error and no event or
audit entry is created.  (The separate `PERMISSIONS` table in
`models/auth.py` uses the `write:feedback` spelling and grants it to
every role except `read_only`, confirming the two capability
conventions are out of sync.) -/
theorem c6_capability_mismatch :
    roleHasPermission .marketing_user "feedback:write" = true ∧
    (∀ r : UserRole, roleHasPermission r "write:feedback" = false) ∧
    routerSubmitFeedback (stOf fbPending) subEx otherUser 3 =
      .error (.permissionDenied
        "Insufficient permissions. Required: write:feedback") ∧
    (∀ r : UserRole,
      ("write:feedback" ∈ authPermissionsTable r ↔ r ≠ .read_only)) := by
  refine ⟨by decide, by intro r; cases r <;> decide, ?_,
    by intro r; cases r <;> decide⟩
  have hgate : hasPermission otherUser "write:feedback" = false := by
    decide
  simp [routerSubmitFeedback, hgate]

/-! ### Claim C7 -/

/-- C7: search pagination is offset/limit with `page` 1-indexed: for any
pagination values within the declared bounds the response's
`total_count` is the number of matching items before pagination and the
returned page is the slice of the sorted filtered list from position
`(page-1)*page_size`, item by item; values outside the bounds fail with
an invalid-argument error instead of being clamped. -/
theorem c7_search_pagination (st : ServiceState)
    (req : FeedbackSearchRequest) :
    (1 ≤ req.page → 1 ≤ req.page_size → req.page_size ≤ 100 →
      ∃ resp, searchEndpointSim st req = .ok resp ∧
        resp.total_count = (filterSearch st req).length ∧
        resp.results = ((sortSearch req (filterSearch st req)).drop
          ((req.page - 1) * req.page_size)).take req.page_size ∧
        resp.results.length ≤ req.page_size ∧
        (∀ k, k < req.page_size →
          resp.results[k]? = (sortSearch req (filterSearch st req))[
            (req.page - 1) * req.page_size + k]?)) ∧
    ((req.page = 0 ∨ req.page_size = 0 ∨ 100 < req.page_size) →
      searchEndpointSim st req =
        .error (.invalidArgument "page or page_size out of range")) := by
  constructor
  · intro h1 h2 h3
    have hv : 1 ≤ req.page ∧ 1 ≤ req.page_size ∧ req.page_size ≤ 100 :=
      ⟨h1, h2, h3⟩
    refine ⟨searchFeedbackService st req, ?_, rfl, rfl, ?_, ?_⟩
    · simp only [searchEndpointSim, if_pos hv]
    · exact List.length_take_le _ _
    · intro k hk
      show (((sortSearch req (filterSearch st req)).drop
          ((req.page - 1) * req.page_size)).take req.page_size)[k]? = _
      rw [List.getElem?_take_of_lt hk, List.getElem?_drop]
  · intro hbad
    have hv : ¬ (1 ≤ req.page ∧ 1 ≤ req.page_size ∧
        req.page_size ≤ 100) := by
      intro hc
      rcases hbad with h | h | h <;> omega
    simp only [searchEndpointSim, if_neg hv]

/-- Witness for C7: page 2 with page size 10 over the 25-event store
returns the slice 11..20 of the sorted list (10 items) with
`total_count` 25. -/
theorem c7_witness :
    ∃ resp, searchEndpointSim st25 { page := 2, page_size := 10 } =
      .ok resp ∧
    resp.total_count = 25 ∧
    resp.results = ((sortSearch { page := 2, page_size := 10 }
      (filterSearch st25 { page := 2, page_size := 10 })).drop 10).take
      10 ∧
    resp.results.length = 10 := by
  obtain ⟨resp, hok, htc, hres, hlen, hget⟩ :=
    (c7_search_pagination st25 { page := 2, page_size := 10 }).1
      (by decide) (by decide) (by decide)
  refine ⟨resp, hok, ?_, hres, ?_⟩
  · rw [htc]
    decide
  · rw [hres]
    decide

/-! ### Claim C8 -/

/-- A SHA-256 hex digest always has 64 characters. -/
theorem hashHexChars_length (hs : Hash8) : (hashHexChars hs).length = 64 := by
  simp [hashHexChars, wordHexChars]

/-- A generated feedback id always has exactly 16 hex characters. -/
theorem generateFeedbackId_length (sub : FeedbackSubmission) (a : User)
    (now : Nat) : (generateFeedbackId sub a now).length = 16 := by
  simp [generateFeedbackId, String.length, List.length_take,
    hashHexChars_length]

set_option maxRecDepth 8000 in
/-- C8 counterexample: submitting when the store already holds an event
under the id the generator produces silently replaces that event — the
store still has one entry, the old (approved) event is gone and the new
pending one sits under the id; no duplicate-id error exists in the
code (submission is total). -/
theorem c8_counterexample :
    (submitFeedback
        ⟨[(generateFeedbackId subEx subUser 5, fbWith .approved)], [], []⟩
        subEx subUser 5).2.feedback_store.length = 1 ∧
    dget (submitFeedback
        ⟨[(generateFeedbackId subEx subUser 5, fbWith .approved)], [], []⟩
        subEx subUser 5).2.feedback_store
      (generateFeedbackId subEx subUser 5) =
      some (submitFeedback
        ⟨[(generateFeedbackId subEx subUser 5, fbWith .approved)], [], []⟩
        subEx subUser 5).1 ∧
    (submitFeedback
        ⟨[(generateFeedbackId subEx subUser 5, fbWith .approved)], [], []⟩
        subEx subUser 5).1.status = FeedbackStatus.pending ∧
    (fbWith .approved).status = FeedbackStatus.approved := by
  refine ⟨?_, ?_, rfl, rfl⟩
  · show (dset [(generateFeedbackId subEx subUser 5, fbWith .approved)]
      (generateFeedbackId subEx subUser 5) _).length = 1
    rw [dset]
    rw [if_pos rfl]
    rfl
  · exact dget_dset_self _ _ _

/-- C8 (amended): the feedback id is deterministically derived from the
actor's id, the feedback type, the target type and the submission
timestamp (the other submission fields play no role) via SHA-256
truncated to exactly 16 hex characters; but creation does not check for
an existing id — the submitted event is stored unconditionally, and an
event already stored under the same id is silently overwritten rather
than rejected with a duplicate-id error. -/
theorem c8_amended (s1 s2 : FeedbackSubmission) (a1 a2 : User)
    (st : ServiceState) (s : FeedbackSubmission) (a : User) (now : Nat)
    (hid : a1.id = a2.id) (hft : s1.feedback_type = s2.feedback_type)
    (htt : s1.target_type = s2.target_type) :
    generateFeedbackId s1 a1 now = generateFeedbackId s2 a2 now ∧
    (generateFeedbackId s a now).length = 16 ∧
    (submitFeedback st s a now).2.feedback_store =
      dset st.feedback_store (generateFeedbackId s a now)
        (submitFeedback st s a now).1 ∧
    dget (submitFeedback st s a now).2.feedback_store
        (generateFeedbackId s a now) =
      some (submitFeedback st s a now).1 := by
  refine ⟨?_, generateFeedbackId_length s a now, rfl, ?_⟩
  · simp only [generateFeedbackId, hid, hft, htt]
  · exact dget_dset_self _ _ _

/-- Witness for C8's amended theorem: two submissions agreeing on actor
id, feedback type, target type and timestamp (but differing in payload
and the actor's name and role) get the same id; the id has 16
characters; and the freshly stored event is found under that id. -/
theorem c8_witness :
    generateFeedbackId subEx subUser 5 =
      generateFeedbackId { subEx with payload := [("note", "x")] }
        uAdminSub 5 ∧
    (generateFeedbackId subEx subUser 5).length = 16 ∧
    dget (submitFeedback (stOf fbPending) subEx subUser 5).2.feedback_store
        (generateFeedbackId subEx subUser 5) =
      some (submitFeedback (stOf fbPending) subEx subUser 5).1 :=
  ⟨(c8_amended subEx { subEx with payload := [("note", "x")] } subUser
      uAdminSub (stOf fbPending) subEx subUser 5 (by decide) (by decide)
      (by decide)).1,
   (c8_amended subEx { subEx with payload := [("note", "x")] } subUser
      uAdminSub (stOf fbPending) subEx subUser 5 (by decide) (by decide)
      (by decide)).2.1,
   (c8_amended subEx { subEx with payload := [("note", "x")] } subUser
      uAdminSub (stOf fbPending) subEx subUser 5 (by decide) (by decide)
      (by decide)).2.2.2⟩

end CIP
